import Mathlib

/-!
Shallow embedding of the hotpatching core of syscall_intercept
(src/src/intercept.c, which concatenates intercept.c with the patcher
translation unit). Addresses are modelled as integers, instruction
records by exactly the fields the code reads, fallible paths by Option
(none standing for the xabort exits). Numeric constants that the source
pulls from headers absent from the snapshot (intercept.h, rv_encode.h,
the Linux uapi headers) are modelled from the specification text and the
public RISC-V 64 Linux ABI; each such definition says so in its comment.
-/

/-- Modelled from the spec: sentinel class tag for gateway (GW) patches,
stored in a patch's syscall_num field. The header defining TYPE_GW is not
in the snapshot; only its being negative and distinct from TYPE_MID, from
the unknown marker -1 and from real syscall numbers is relied upon. -/
def TYPE_GW : Int := -2

/-- Modelled from the spec: sentinel class tag for MID patches, stored in
a patch's syscall_num field (header not in the snapshot). -/
def TYPE_MID : Int := -3

/-- Modelled from the spec: size in bytes of a gateway patch, the sum of
the addi sp, store, 2 GiB jump pair, load and addi sp instructions listed
in the activation section (header not in the snapshot). -/
def TYPE_GW_SIZE : Nat := 24

/-- Modelled from the spec: size in bytes of a MID patch, the sum of the
addi sp, store, jal, load and addi sp instructions listed in the
activation section (header not in the snapshot). -/
def TYPE_MID_SIZE : Nat := 20

/-- Modelled from the spec: byte size of an uncompressed jal instruction
(header not in the snapshot). -/
def JAL_INS_SIZE : Nat := 4

/-- Modelled from the spec: byte size of the compressed c.li encoding used
to reload a7 when the syscall number fits 5 bits (header not in the
snapshot). -/
def C_LI_INS_SIZE : Nat := 2

/-- Modelled from the spec: byte size of the uncompressed addi encoding
used to reload a7 (header not in the snapshot). -/
def ADDI_INS_SIZE : Nat := 4

/-- Modelled from the spec: byte size of the addi sp, sp, -48 instruction
that opens a gateway's stack frame (header not in the snapshot). -/
def MODIFY_SP_INS_SIZE : Nat := 4

/-- Modelled from the spec: the reach of a jal jump used when pairing MID
and SML patches with a gateway, one MiB as given by the 21-bit jal
immediate (header not in the snapshot). -/
def JAL_MID_REACH : Nat := 0x100000

/-- From intercept.c: sentinel placed in a0 to mark a syscall the C
routine leaves to the assembly entry. -/
def UNH_SYSCALL : Int := -0x1000

/-- From intercept.c: sentinel placed in a1 for the generic unhandled
path, currently only rt_sigreturn. -/
def UNH_GENERIC : Int := -0x1001

/-- From intercept.c: sentinel placed in a1 for clone calls that carry a
new child stack and go through the clone wrapper. -/
def UNH_CLONE : Int := -0x1002

/-- Linux RISC-V 64 ABI value of the rt_sigreturn syscall number. -/
def SYS_rt_sigreturn : Int := 139

/-- Linux RISC-V 64 ABI value of the clone syscall number. -/
def SYS_clone : Int := 220

/-- Linux RISC-V 64 ABI value of the clone3 syscall number. -/
def SYS_clone3 : Int := 435

/-- Linux ABI value of the CLONE_VFORK flag tested on clone's first
argument. -/
def CLONE_VFORK : Int := 0x4000

/-- The C cast (int)a7 used to form desc.nr from the 64-bit a7 register:
two's complement truncation to 32 bits. -/
def toInt32 (x : Int) : Int := (x + 2 ^ 31).emod (2 ^ 32) - 2 ^ 31

/-! ## Environment switch and debug output (intercept, debug_dump) -/

/-- From intercept(): the global debug_dumps_on flag is the result of
getenv("INTERCEPT_DEBUG_DUMP") compared against the null pointer, so it
only records whether the variable is set at all. The environment lookup
is modelled as an Option String, none meaning the variable is unset. -/
def debug_dumps_on (env : Option String) : Bool := env.isSome

/-- From debug_dump(): nothing is written to fd 2 when the flag is off or
the formatted length is not positive; otherwise one write happens. The
formatted length stands in for the message. -/
def debug_dump_writes (dumps_on : Bool) (len : Int) : Bool :=
  if !dumps_on then false
  else if len ≤ 0 then false
  else true

/-! ## Post-clone hook dispatch (intercept_routine_post_clone) -/

/-- From intercept_routine_post_clone: on the value a clone returned, run
the child hook when it returned zero, otherwise the parent hook with that
value; a hook only runs when its pointer is installed. The result records
whether the child hook ran and the value the parent hook received. -/
def intercept_routine_post_clone (child_installed parent_installed : Bool)
    (a0 : Int) : Bool × Option Int :=
  if a0 = 0 then
    (if child_installed then (true, none) else (false, none))
  else
    (if parent_installed then (false, some a0) else (false, none))

/-! ## Activation-time bounds check (activate_patches) -/

/-- A patch as activate_patches sees it: where the overwrite starts and
how many bytes the planner assigned to it. -/
structure act_patch where
  dst_jmp_patch : Int
  patch_size_bytes : Nat
deriving DecidableEq, Repr

/-- An object descriptor as activate_patches sees it: the text segment
extent and the patch list. -/
structure act_desc where
  text_start : Int
  text_end : Int
  items : List act_patch
deriving DecidableEq, Repr

/-- From activate_patches: the only bounds validation performed before a
patch's bytes are written; its failure is the xabort with message
"dst_jmp_patch outside text". -/
def dst_jmp_patch_in_text (d : act_desc) (p : act_patch) : Bool :=
  !(decide (p.dst_jmp_patch < d.text_start) || decide (p.dst_jmp_patch > d.text_end))

/-- From activate_patches: the patch loop aborts on the first patch whose
guard fails, so an activation that completes means every patch passed. -/
def activate_patches_checks (d : act_desc) : Bool :=
  d.items.all (fun p => dst_jmp_patch_in_text d p)

/-! ## Gateway resolution (find_GW) -/

/-- A patch as find_GW sees it: the class tag or syscall number, the
address the dispatcher returns to, and the first overwritten byte. -/
structure gw_patch where
  syscall_num : Int
  return_address : Int
  dst_jmp_patch : Int
deriving DecidableEq, Repr

/-- From find_GW: the address of the jal that will jump to the gateway,
derived from the patch's return address; a MID patch's jal sits one
MODIFY_SP_INS_SIZE further in because its patch shares the gateway body
past the leading addi sp. -/
def find_GW_jump_from (p : gw_patch) : Int :=
  if p.syscall_num = TYPE_MID then
    p.return_address - JAL_INS_SIZE + MODIFY_SP_INS_SIZE
  else
    p.return_address - JAL_INS_SIZE

/-- From find_GW: the scan over the object's patch list; patches that are
not gateways are skipped, and the loop breaks on the first gateway whose
dst_jmp_patch is within jal reach of the jump source. none means the loop
fell off the end without finding one. -/
def find_GW_loop (jf : Int) : List gw_patch → Option Int
  | [] => none
  | q :: rest =>
    if q.syscall_num = TYPE_GW ∧ (q.dst_jmp_patch - jf).natAbs < JAL_MID_REACH then
      some q.dst_jmp_patch
    else find_GW_loop jf rest

/-- From find_GW: the value of the patch's dst_jmp_patch field after
gateway resolution. When the scan finds nothing the field keeps its old
value, and a MID patch is moved past the gateway's addi sp in either
case. -/
def find_GW (items : List gw_patch) (p : gw_patch) : Int :=
  let dst := match find_GW_loop (find_GW_jump_from p) items with
    | some d => d
    | none => p.dst_jmp_patch
  if p.syscall_num = TYPE_MID then dst + MODIFY_SP_INS_SIZE else dst

/-- Follows the claim's words: the gateway paired with a MID or SML patch
is the one nearest to the jal source among the gateways within
JAL_MID_REACH of it. -/
def find_GW_nearest (items : List gw_patch) (jf : Int) : Option gw_patch :=
  items.foldl
    (fun best q =>
      if q.syscall_num = TYPE_GW ∧ (q.dst_jmp_patch - jf).natAbs < JAL_MID_REACH then
        match best with
        | none => some q
        | some b =>
          if (q.dst_jmp_patch - jf).natAbs < (b.dst_jmp_patch - jf).natAbs then
            some q
          else some b
      else best)
    none

/-! ## Last-match scan (get_cur_patch) -/

/-- A patch as get_cur_patch sees it: the return-address key, plus a tag
so that distinct patches are distinguishable. -/
structure cur_patch where
  return_address : Int
  tag : Nat
deriving DecidableEq, Repr

/-- From get_cur_patch: the inner loop over one object's patches. The
running patch pointer is overwritten on every iteration, and the break
on a key match only leaves this inner loop. -/
def get_cur_patch_obj (key : Int) : Option cur_patch → List cur_patch → Option cur_patch
  | cur, [] => cur
  | _, q :: rest =>
    if q.return_address = key then some q
    else get_cur_patch_obj key (some q) rest

/-- From get_cur_patch: the outer loop over all objects, starting from the
null patch pointer; the pointer left by one object's scan carries into
the next object's scan. -/
def get_cur_patch (objs : List (List cur_patch)) (key : Int) : Option cur_patch :=
  objs.foldl (fun cur items => get_cur_patch_obj key cur items) none

/-- Follows the claim's words: scan all patches of all objects and return
the last one whose return_address equals the key. -/
def get_cur_patch_claimed (objs : List (List cur_patch)) (key : Int) : Option cur_patch :=
  (objs.flatten.filter (fun q => decide (q.return_address = key))).getLast?

/-- The last object in the list that has any patches; used to state what
get_cur_patch actually returns. -/
def last_nonempty_obj : List (List cur_patch) → Option (List cur_patch)
  | [] => none
  | l :: rest =>
    match last_nonempty_obj rest with
    | some next => some next
    | none => if l.isEmpty then none else some l

/-- What one object's scan yields once it runs on a nonempty list: its
first key match, or its last patch when nothing matches. -/
def first_match_or_last (key : Int) (items : List cur_patch) : Option cur_patch :=
  match items.find? (fun q => decide (q.return_address = key)) with
  | some q => some q
  | none => items.getLast?

/-! ## Two-ecalls trimming (is_SML_patchable, check_two_ecalls) -/

/-- The slice of a patch descriptor check_two_ecalls reads: the statically
recovered syscall number (negative when unknown), the captured return
register (0 when none), and the byte length of each surrounding
instruction record by index. -/
structure te_patch where
  syscall_num : Int
  return_register : Nat
  lens : Nat → Nat

/-- From is_SML_patchable: an SML patch needs a statically known syscall
number, strictly more room than the jal alone, and, when no return
register was captured and the number does not fit the compressed c.li
immediate, more than the jal plus c.li pair. -/
def is_SML_patchable (syscall_num : Int) (return_register : Nat)
    (patchable_size : Nat) : Bool :=
  if syscall_num < 0 then false
  else if patchable_size ≤ JAL_INS_SIZE then false
  else if return_register = 0 ∧
      (patchable_size = JAL_INS_SIZE + C_LI_INS_SIZE ∧ 31 < syscall_num) then false
  else true

/-- One accumulating for-loop of check_two_ecalls: walk the given index
list, add each instruction's length to the running span size, and return
ret i for the first index where the predicate on the span size holds. -/
def scanLoop (len : Nat → Nat) (pred : Nat → Bool) (ret : Nat → Nat) :
    Nat → List Nat → Option Nat
  | _, [] => none
  | acc, i :: rest =>
    if pred (acc + len i) then some (ret i) else scanLoop len pred ret (acc + len i) rest

/-- Total byte length of the instruction records from index lo through
index i inclusive. -/
def sumRange (len : Nat → Nat) (lo i : Nat) : Nat :=
  ((List.range' lo (i + 1 - lo)).map len).sum

/-- The search the specification describes: the first index i in the
range starting at lo such that the span from lo through i satisfies the
predicate on its byte size. -/
def firstFitEnd (len : Nat → Nat) (pred : Nat → Bool) (lo n : Nat) : Option Nat :=
  (List.range' lo n).find? (fun i => pred (sumRange len lo i))

/-- From check_two_ecalls: the trimming helper for a window holding a
second ecall at second_ecall_idx. In source order: when the syscall
number is unknown, the first span from start_idx reaching TYPE_MID_SIZE
strictly before the second ecall; then a span through the first ecall
reaching TYPE_MID_SIZE or passing is_SML_patchable, in which case the
whole prefix through the ecall is kept; then the first SML-patchable
span anywhere before the second ecall; else start_idx, the zero-byte
span. -/
def check_two_ecalls (p : te_patch) (syscall_idx start_idx second_ecall_idx : Nat) : Nat :=
  let force_mid :=
    if p.syscall_num < 0 then
      scanLoop p.lens (fun sz => decide (TYPE_MID_SIZE ≤ sz)) (fun i => i + 1) 0
        (List.range' start_idx (second_ecall_idx - start_idx))
    else none
  let before_first :=
    scanLoop p.lens
      (fun sz => decide (TYPE_MID_SIZE ≤ sz) ||
        is_SML_patchable p.syscall_num p.return_register sz)
      (fun _ => syscall_idx + 1) 0
      (List.range' start_idx (syscall_idx + 1 - start_idx))
  let sml_before_second :=
    scanLoop p.lens
      (fun sz => is_SML_patchable p.syscall_num p.return_register sz)
      (fun i => i + 1) 0
      (List.range' start_idx (second_ecall_idx - start_idx))
  match force_mid with
  | some e => e
  | none =>
    match before_first with
    | some e => e
    | none =>
      match sml_before_second with
      | some e => e
      | none => start_idx

/-- Follows the claim's words: first a MID-sized span before the first
ecall, then an SML-patchable span before the first ecall, then, only
when the syscall number is unknown, any MID-sized span that fits before
the second ecall, then an SML span anywhere up to the second ecall, and
a zero-byte span when everything fails. -/
def check_two_ecalls_claimed (p : te_patch)
    (syscall_idx start_idx second_ecall_idx : Nat) : Nat :=
  if (firstFitEnd p.lens (fun sz => decide (TYPE_MID_SIZE ≤ sz))
      start_idx (syscall_idx + 1 - start_idx)).isSome then
    syscall_idx + 1
  else if (firstFitEnd p.lens
      (fun sz => is_SML_patchable p.syscall_num p.return_register sz)
      start_idx (syscall_idx + 1 - start_idx)).isSome then
    syscall_idx + 1
  else
    match (if p.syscall_num < 0 then
        firstFitEnd p.lens (fun sz => decide (TYPE_MID_SIZE ≤ sz))
          start_idx (second_ecall_idx - start_idx)
      else none) with
    | some i => i + 1
    | none =>
      match firstFitEnd p.lens
          (fun sz => is_SML_patchable p.syscall_num p.return_register sz)
          start_idx (second_ecall_idx - start_idx) with
      | some i => i + 1
      | none => start_idx

/-- The amended priority order, written through the specification-style
search firstFitEnd: the unknown-number MID search before the second
ecall runs first, then the combined MID-or-SML search through the first
ecall which keeps the whole prefix, then the SML search before the
second ecall, and the zero-byte span on failure. -/
def check_two_ecalls_amended (p : te_patch)
    (syscall_idx start_idx second_ecall_idx : Nat) : Nat :=
  match (if p.syscall_num < 0 then
      firstFitEnd p.lens (fun sz => decide (TYPE_MID_SIZE ≤ sz))
        start_idx (second_ecall_idx - start_idx)
    else none) with
  | some i => i + 1
  | none =>
    if (firstFitEnd p.lens
        (fun sz => decide (TYPE_MID_SIZE ≤ sz) ||
          is_SML_patchable p.syscall_num p.return_register sz)
        start_idx (syscall_idx + 1 - start_idx)).isSome then
      syscall_idx + 1
    else
      match firstFitEnd p.lens
          (fun sz => is_SML_patchable p.syscall_num p.return_register sz)
          start_idx (second_ecall_idx - start_idx) with
      | some i => i + 1
      | none => start_idx

/-- From create_patch: the classification step run on the patchable size
that check_surrounding_instructions returned; none models the xabort
with message "not enough space for patching around syscall". An SML
patch keeps the statically known syscall number in syscall_num. -/
def create_patch_classify (syscall_num : Int) (return_register : Nat)
    (length : Nat) : Option Int :=
  if TYPE_GW_SIZE ≤ length then some TYPE_GW
  else if TYPE_MID_SIZE ≤ length then some TYPE_MID
  else if is_SML_patchable syscall_num return_register length then some syscall_num
  else none

/-! ## Patch identification (detect_cur_patch) -/

/-- A patch as detect_cur_patch sees it: the return-address key, the
syscall_num field holding either a class tag or, for SML patches, the
real syscall number, and the relocation block's address. -/
structure d_patch where
  return_address : Nat
  syscall_num : Int
  relocation_address : Nat
deriving DecidableEq, Repr

/-- The patches of all objects in the order the nested o and p loops of
detect_cur_patch visit them. -/
def allPatches (objs : List (List d_patch)) : List d_patch := objs.flatten

/-- From detect_cur_patch: the switch accepting a key match only when the
patch's class is consistent with the candidate slot; gateways go with
slot 2, MID with slot 0, and the default branch, covering SML patches
with their real syscall numbers, with slot 1. -/
def slot_consistent (num : Int) (slot : Nat) : Bool :=
  if num = TYPE_GW then decide (slot = 2)
  else if num = TYPE_MID then decide (slot = 0)
  else decide (slot = 1)

/-- From detect_cur_patch: one pass of the inner loops for a fixed slot,
reaching the goto on the first patch whose return_address equals the
candidate and whose class is consistent with the slot; the value carried
to the return statement is that patch's syscall_num and relocation
address pair. -/
def findConsistent (objs : List (List d_patch)) (key : Nat) (slot : Nat) :
    Option (Int × Nat) :=
  ((allPatches objs).find? (fun q =>
      decide (q.return_address = key) && slot_consistent q.syscall_num slot)).map
    (fun q => (q.syscall_num, q.relocation_address))

/-- From detect_cur_patch: the local ret_addrs array indexed by the loop
counter. The array has three elements; an index past 2 is an
out-of-bounds read, modelled by the arbitrary junk function. -/
def ret_addrs (mid sml gw : Nat) (junk : Nat → Nat) : Nat → Nat
  | 0 => mid
  | 1 => sml
  | 2 => gw
  | i => junk i

/-- From detect_cur_patch: the outer ra_idx loop. Besides the result, it
collects the list of candidate-array indices at which ret_addrs is read;
the read ret_addrs with ra_idx happens inside the innermost loop body, so
an index is read exactly when at least one patch exists. The none result
is the fall-through to the xabort "Failed to identify patch". -/
def detect_scan (objs : List (List d_patch)) (cand : Nat → Nat) :
    List Nat → Option (Int × Nat) × List Nat
  | [] => (none, [])
  | i :: rest =>
    let reads : List Nat := if (allPatches objs).isEmpty then [] else [i]
    match findConsistent objs (cand i) i with
    | some r => (some r, reads)
    | none =>
      let next := detect_scan objs cand rest
      (next.1, reads ++ next.2)

/-- From detect_cur_patch: the whole routine. The loop bound in the
source is sizeof applied to the three-element uint64_t array, which is
24 bytes, not 3 elements, hence List.range 24. -/
def detect_cur_patch (objs : List (List d_patch)) (mid sml gw : Nat)
    (junk : Nat → Nat) : Option (Int × Nat) × List Nat :=
  detect_scan objs (ret_addrs mid sml gw junk) (List.range 24)

/-! ## Syscall dispatch (intercept_routine) -/

/-- The collaborators intercept_routine calls out to during one
invocation, modelled as oracles for this one call: the user hook taking
nr, the six arguments and the current result-slot value and returning
its int result paired with the slot value it leaves behind; the
magic-syscalls handler, some v meaning it handled the call leaving v in
the result slot; the wrapper_ret pair syscall_no_intercept would return;
the stack member of the clone_args struct the clone3 argument points to;
and whether the two clone hook pointers are installed. -/
structure routine_env where
  hook : Option (Int → Int → Int → Int → Int → Int → Int → Int → Int × Int)
  magic : Option Int
  kernel : Int × Int
  clone_args_stack : Int
  child_hook_installed : Bool
  parent_hook_installed : Bool

/-- What one run of intercept_routine did: the wrapper_ret pair handed
back to the assembly entry, whether the no-intercept kernel call ran,
and the post-clone hook activity. -/
structure routine_out where
  a0 : Int
  a1 : Int
  kernel_called : Bool
  child_hook_called : Bool
  parent_hook_called : Option Int
deriving DecidableEq, Repr

/-- From intercept_routine: the body, with logging omitted. The result
slot starts as a0; the magic handler may consume the call; the hook, when
installed, decides forwarding and may rewrite the slot; rt_sigreturn is
answered with the generic unhandled sentinel pair; a forwarded clone with
a child stack or CLONE_VFORK, and a forwarded clone3 whose argument
struct carries a nonzero stack, are answered with the clone sentinel
pair; otherwise forwarding runs the kernel call and, for clone and
clone3, the post-clone dispatch on its a0. -/
def intercept_routine (env : routine_env)
    (a0 a1 a2 a3 a4 a5 _a6 a7 : Int) : routine_out :=
  let nr := toInt32 a7
  match env.magic with
  | some v => ⟨v, a1, false, false, none⟩
  | none =>
    let hook_out : Int × Int :=
      match env.hook with
      | some h => h nr a0 a1 a2 a3 a4 a5 a0
      | none => (1, a0)
    if nr = SYS_rt_sigreturn then
      ⟨UNH_SYSCALL, UNH_GENERIC, false, false, none⟩
    else if hook_out.1 ≠ 0 then
      if nr = SYS_clone ∧ (a1 ≠ 0 ∨ Int.land a0 CLONE_VFORK ≠ 0) then
        ⟨UNH_SYSCALL, UNH_CLONE, false, false, none⟩
      else if nr = SYS_clone3 ∧ env.clone_args_stack ≠ 0 then
        ⟨UNH_SYSCALL, UNH_CLONE, false, false, none⟩
      else
        let res := env.kernel
        let pc : Bool × Option Int :=
          if nr = SYS_clone ∨ nr = SYS_clone3 then
            intercept_routine_post_clone env.child_hook_installed
              env.parent_hook_installed res.1
          else (false, none)
        ⟨res.1, res.2, true, pc.1, pc.2⟩
    else
      ⟨hook_out.2, a1, false, false, none⟩

/-! ## Theorems -/

/-- Helper: find? only depends on the predicate's values on the list. -/
theorem list_find?_congr {α : Type} {p q : α → Bool} :
    ∀ l : List α, (∀ a ∈ l, p a = q a) → l.find? p = l.find? q := by
  intro l
  induction l with
  | nil => intro _; rfl
  | cons x xs ih =>
    intro h
    have hx : p x = q x := h x (List.mem_cons_self x xs)
    cases hq : q x with
    | true =>
      rw [List.find?_cons_of_pos _ (by rw [hx]; exact hq),
        List.find?_cons_of_pos _ hq]
    | false =>
      rw [List.find?_cons_of_neg _ (by simp [hx, hq]),
        List.find?_cons_of_neg _ (by simp [hq]),
        ih (fun a ha => h a (List.mem_cons_of_mem x ha))]

/-- Helper: the span from lo through lo itself is just that instruction's
length. -/
theorem sumRange_self (len : Nat → Nat) (lo : Nat) : sumRange len lo lo = len lo := by
  unfold sumRange
  have h : lo + 1 - lo = 1 := by omega
  rw [h]
  simp

/-- Helper: peeling the first instruction off a span. -/
theorem sumRange_cons (len : Nat → Nat) {lo i : Nat} (h : lo ≤ i) :
    sumRange len lo i = len lo + sumRange len (lo + 1) i := by
  unfold sumRange
  have h1 : i + 1 - lo = (i - lo) + 1 := by omega
  have h2 : i + 1 - (lo + 1) = i - lo := by omega
  rw [h1, h2, List.range'_succ]
  simp

/-- Helper for C6: each accumulating loop of check_two_ecalls is the
specification-style search for the first index whose span satisfies the
predicate. -/
theorem scanLoop_eq_firstFit (len : Nat → Nat) (pred : Nat → Bool) (ret : Nat → Nat) :
    ∀ (n lo acc : Nat),
      scanLoop len pred ret acc (List.range' lo n) =
        ((List.range' lo n).find? (fun i => pred (acc + sumRange len lo i))).map ret := by
  intro n
  induction n with
  | zero => intro lo acc; rfl
  | succ m ih =>
    intro lo acc
    rw [List.range'_succ]
    by_cases hp : pred (acc + len lo) = true
    · have hp2 : (fun i => pred (acc + sumRange len lo i)) lo = true := by
        simp only [sumRange_self]; exact hp
      rw [@List.find?_cons_of_pos _ (fun i => pred (acc + sumRange len lo i)) lo
        (List.range' (lo + 1) m) hp2]
      show (if pred (acc + len lo) then some (ret lo)
        else scanLoop len pred ret (acc + len lo) (List.range' (lo + 1) m)) = _
      rw [if_pos hp]
      rfl
    · have hp2 : ¬ ((fun i => pred (acc + sumRange len lo i)) lo = true) := by
        simp only [sumRange_self]; exact hp
      rw [@List.find?_cons_of_neg _ (fun i => pred (acc + sumRange len lo i)) lo
        (List.range' (lo + 1) m) hp2]
      show (if pred (acc + len lo) then some (ret lo)
        else scanLoop len pred ret (acc + len lo) (List.range' (lo + 1) m)) = _
      rw [if_neg hp, ih (lo + 1) (acc + len lo)]
      have hcong : ∀ a ∈ List.range' (lo + 1) m,
          (fun i => pred (acc + len lo + sumRange len (lo + 1) i)) a =
            (fun i => pred (acc + sumRange len lo i)) a := by
        intro a ha
        have hla : lo + 1 ≤ a := (List.mem_range'_1.mp ha).1
        have hs : sumRange len lo a = len lo + sumRange len (lo + 1) a :=
          sumRange_cons len (by omega)
        simp only [hs, Nat.add_assoc]
      rw [list_find?_congr _ hcong]

/-- C10: for every value v produced by a forwarded clone or clone3,
intercept_routine_post_clone runs the child hook exactly when v is zero
and the child hook is installed, and otherwise hands v, negative error
codes included, to the parent hook whenever that one is installed. -/
theorem intercept_routine_post_clone_dispatch
    (child_installed parent_installed : Bool) (v : Int) :
    ((intercept_routine_post_clone child_installed parent_installed v).1 = true ↔
      (child_installed = true ∧ v = 0)) ∧
    ((intercept_routine_post_clone child_installed parent_installed v).2 =
      if parent_installed = true ∧ v ≠ 0 then some v else none) := by
  unfold intercept_routine_post_clone
  by_cases h : v = 0 <;>
    cases child_installed <;> cases parent_installed <;> simp [h]

/-- C8 fails on the code: exporting INTERCEPT_DEBUG_DUMP with an empty
value still enables diagnostics, because intercept() only compares the
getenv result against null, and debug_dump then does write a five-byte
message, while the claim demands that an empty value write nothing. -/
theorem debug_dump_empty_env_cex :
    debug_dumps_on (some "") = true ∧
    debug_dump_writes (debug_dumps_on (some "")) 5 = true := by
  exact ⟨rfl, rfl⟩

/-- C8 amended: diagnostics are enabled exactly when the variable is set,
to any value including the empty string; when it is unset nothing is ever
written to fd 2. -/
theorem debug_dump_enabled_iff_set :
    (∀ (s : String) (len : Int),
      debug_dump_writes (debug_dumps_on (some s)) len = decide (0 < len)) ∧
    (∀ len : Int, debug_dump_writes (debug_dumps_on none) len = false) := by
  refine ⟨fun s len => ?_, fun len => rfl⟩
  by_cases h : len ≤ 0
  · have h2 : ¬ (0 < len) := by omega
    simp [debug_dumps_on, debug_dump_writes, h, h2]
  · have h2 : 0 < len := by omega
    simp [debug_dumps_on, debug_dump_writes, h, h2]

/-- C4 fails on the code: a patch whose overwrite starts at the very end
of the text segment passes the activation guard even though its
overwritten range runs past text_end, because the guard never reads
patch_size_bytes. -/
theorem activate_patches_bounds_cex :
    activate_patches_checks ⟨0, 100, [⟨100, 8⟩]⟩ = true ∧
    ∃ p ∈ (act_desc.mk 0 100 [⟨100, 8⟩]).items,
      ¬ (p.dst_jmp_patch + (p.patch_size_bytes : Int) ≤
          (act_desc.mk 0 100 [⟨100, 8⟩]).text_end) := by
  refine ⟨rfl, ⟨100, 8⟩, by simp, by norm_num⟩

/-- C4 amended: what the activation-time guard actually establishes for
every patch it lets through is text_start ≤ dst_jmp_patch and
dst_jmp_patch ≤ text_end; the end of the overwritten range,
dst_jmp_patch + patch_size_bytes, is not checked against text_end. -/
theorem activate_patches_bounds_amended (d : act_desc) (p : act_patch)
    (h : dst_jmp_patch_in_text d p = true) :
    d.text_start ≤ p.dst_jmp_patch ∧ p.dst_jmp_patch ≤ d.text_end := by
  unfold dst_jmp_patch_in_text at h
  simp only [Bool.not_eq_true', Bool.or_eq_false_iff, decide_eq_false_iff_not,
    not_lt, gt_iff_lt] at h
  exact ⟨h.1, h.2⟩

/-- The amended C4 statement holds at a concrete in-bounds patch. -/
theorem activate_patches_bounds_amended_witness :
    dst_jmp_patch_in_text ⟨0, 100, [⟨50, 8⟩]⟩ ⟨50, 8⟩ = true ∧
    ((0 : Int) ≤ 50 ∧ (50 : Int) ≤ 100) :=
  ⟨by decide, activate_patches_bounds_amended ⟨0, 100, [⟨50, 8⟩]⟩ ⟨50, 8⟩ (by decide)⟩

/-- Helper for C5: the find_GW scan is the first gateway in patch order
within jal reach, mapped to its dst_jmp_patch. -/
theorem find_GW_loop_eq (jf : Int) :
    ∀ items : List gw_patch,
      find_GW_loop jf items =
        (items.find? (fun q =>
          decide (q.syscall_num = TYPE_GW ∧
            (q.dst_jmp_patch - jf).natAbs < JAL_MID_REACH))).map
          (fun q => q.dst_jmp_patch) := by
  intro items
  induction items with
  | nil => rfl
  | cons q rest ih =>
    by_cases h : q.syscall_num = TYPE_GW ∧ (q.dst_jmp_patch - jf).natAbs < JAL_MID_REACH
    · rw [find_GW_loop, if_pos h, List.find?_cons_of_pos _ (by simpa using h)]
      rfl
    · rw [find_GW_loop, if_neg h, List.find?_cons_of_neg _ (by simpa using h), ih]

/-- C5 fails on the code: with two gateways in reach, find_GW redirects an
SML patch to the gateway that comes first in the object's patch order
even though the other one is strictly nearer to the jal source, so the
pairing is not with the nearest gateway. -/
theorem find_GW_nearest_cex :
    find_GW [⟨TYPE_GW, 0, 1000⟩, ⟨TYPE_GW, 0, 110⟩, ⟨40, 104, 0⟩] ⟨40, 104, 0⟩ = 1000 ∧
    find_GW_nearest [⟨TYPE_GW, 0, 1000⟩, ⟨TYPE_GW, 0, 110⟩, ⟨40, 104, 0⟩]
      (find_GW_jump_from ⟨40, 104, 0⟩) = some ⟨TYPE_GW, 0, 110⟩ ∧
    (1000 : Int) ≠ 110 := by decide

/-- C5 amended: each MID and SML patch is redirected to the first gateway
in the object's patch order whose dst_jmp_patch lies within JAL_MID_REACH
of the jal source, not to the nearest such gateway; when no gateway is in
reach dst_jmp_patch silently keeps its old value; a MID patch is offset
by MODIFY_SP_INS_SIZE past the gateway's addi sp in either case. -/
theorem find_GW_first_in_reach (items : List gw_patch) (p : gw_patch) :
    find_GW items p =
      (match items.find? (fun q =>
          decide (q.syscall_num = TYPE_GW ∧
            (q.dst_jmp_patch - find_GW_jump_from p).natAbs < JAL_MID_REACH)) with
        | some g => g.dst_jmp_patch
        | none => p.dst_jmp_patch) +
      (if p.syscall_num = TYPE_MID then (MODIFY_SP_INS_SIZE : Int) else 0) := by
  unfold find_GW
  rw [find_GW_loop_eq]
  cases h : items.find? (fun q =>
      decide (q.syscall_num = TYPE_GW ∧
        (q.dst_jmp_patch - find_GW_jump_from p).natAbs < JAL_MID_REACH)) with
  | none => by_cases hm : p.syscall_num = TYPE_MID <;> simp [h, hm]
  | some g => by_cases hm : p.syscall_num = TYPE_MID <;> simp [h, hm]

/-- Helper for C7: prepending a patch that does not match the key to a
still nonempty object leaves the object's scan result unchanged. -/
theorem first_match_or_last_cons (key : Int) (q r : cur_patch) (rs : List cur_patch)
    (h : ¬ q.return_address = key) :
    first_match_or_last key (q :: r :: rs) = first_match_or_last key (r :: rs) := by
  unfold first_match_or_last
  rw [List.find?_cons_of_neg _ (by simp [h]), List.getLast?_cons_cons]

/-- Helper for C7: once the inner scan runs on a nonempty object it
yields the object's first key match, or its last patch when nothing
matches; on an empty object it passes the incoming pointer through. -/
theorem get_cur_patch_obj_eq (key : Int) :
    ∀ (items : List cur_patch) (cur : Option cur_patch),
      get_cur_patch_obj key cur items =
        if items.isEmpty then cur else first_match_or_last key items := by
  intro items
  induction items with
  | nil => intro cur; rfl
  | cons q rest ih =>
    intro cur
    by_cases h : q.return_address = key
    · rw [get_cur_patch_obj, if_pos h]
      unfold first_match_or_last
      rw [List.find?_cons_of_pos _ (by simp [h])]
      rfl
    · rw [get_cur_patch_obj, if_neg h, ih (some q)]
      cases rest with
      | nil => simp [first_match_or_last, h]
      | cons r rs =>
        rw [first_match_or_last_cons key q r rs h]
        rfl

/-- C7 fails on the code: the break in get_cur_patch only leaves the
inner loop, so with the key matching a patch of the first object and a
second object present, the returned patch is the second object's last
patch, whose return_address does not equal the key at all, rather than
the (unique, hence also last) matching patch. -/
theorem get_cur_patch_last_match_cex :
    get_cur_patch [[⟨5, 0⟩], [⟨6, 1⟩]] 5 = some ⟨6, 1⟩ ∧
    get_cur_patch_claimed [[⟨5, 0⟩], [⟨6, 1⟩]] 5 = some ⟨5, 0⟩ ∧
    (cur_patch.mk 6 1) ≠ (cur_patch.mk 5 0) := by decide

/-- C7 amended: get_cur_patch returns, for the last object that has any
patches, that object's first patch matching the key, or that object's
last patch when none of its patches matches; matches in earlier objects
are forgotten, and with no patches at all the null pointer is returned. -/
theorem get_cur_patch_amended_eq (objs : List (List cur_patch)) (key : Int) :
    get_cur_patch objs key =
      match last_nonempty_obj objs with
      | none => none
      | some l => first_match_or_last key l := by
  have main : ∀ (os : List (List cur_patch)) (cur : Option cur_patch),
      os.foldl (fun c items => get_cur_patch_obj key c items) cur =
        match last_nonempty_obj os with
        | none => cur
        | some l => first_match_or_last key l := by
    intro os
    induction os with
    | nil => intro cur; rfl
    | cons l rest ih =>
      intro cur
      rw [List.foldl_cons, ih]
      cases h : last_nonempty_obj rest with
      | some nxt => simp [last_nonempty_obj, h]
      | none =>
        rw [get_cur_patch_obj_eq]
        simp only [last_nonempty_obj, h]
        cases he : l.isEmpty <;> simp [he]
  exact main objs none

/-- C6 fails on the code: at a window with unknown syscall number where a
MID-sized span also fits before the first ecall (six 4-byte records, the
first ecall at index 5, a second at index 6), the helper's first search,
the unknown-number MID scan up to the second ecall, answers end index 5,
whereas the claim's priority order would run the before-first-ecall MID
search first and answer the full prefix, end index 6. -/
theorem check_two_ecalls_priority_cex :
    check_two_ecalls ⟨-1, 0, fun _ => 4⟩ 5 0 6 = 5 ∧
    check_two_ecalls_claimed ⟨-1, 0, fun _ => 4⟩ 5 0 6 = 6 ∧
    (5 : Nat) ≠ 6 := by decide

/-- C6 amended: the helper searches, in this order, for any MID-sized
span before the second ecall but only when the syscall number is
unknown, then for a span through the first ecall that is MID-sized or
SML-patchable, keeping the whole prefix through the ecall, then for an
SML-patchable span anywhere before the second ecall; when every
alternative fails it returns the zero-byte span end = start, upon which
the planner's classification aborts, a zero patchable size passing no
class test. -/
theorem check_two_ecalls_amended_eq (p : te_patch)
    (syscall_idx start_idx second_ecall_idx : Nat) :
    (check_two_ecalls p syscall_idx start_idx second_ecall_idx =
      check_two_ecalls_amended p syscall_idx start_idx second_ecall_idx) ∧
    (∀ (num : Int) (rr : Nat), create_patch_classify num rr 0 = none) := by
  constructor
  · unfold check_two_ecalls check_two_ecalls_amended firstFitEnd
    simp only [scanLoop_eq_firstFit, Nat.zero_add]
    by_cases hnum : p.syscall_num < 0
    · rw [if_pos hnum, if_pos hnum]
      generalize List.find? (fun i => decide (TYPE_MID_SIZE ≤ sumRange p.lens start_idx i))
        (List.range' start_idx (second_ecall_idx - start_idx)) = o1
      generalize List.find? (fun i => decide (TYPE_MID_SIZE ≤ sumRange p.lens start_idx i) ||
          is_SML_patchable p.syscall_num p.return_register (sumRange p.lens start_idx i))
        (List.range' start_idx (syscall_idx + 1 - start_idx)) = o2
      generalize List.find? (fun i => is_SML_patchable p.syscall_num p.return_register
          (sumRange p.lens start_idx i))
        (List.range' start_idx (second_ecall_idx - start_idx)) = o3
      cases o1 <;> cases o2 <;> cases o3 <;> rfl
    · rw [if_neg hnum, if_neg hnum]
      generalize List.find? (fun i => decide (TYPE_MID_SIZE ≤ sumRange p.lens start_idx i) ||
          is_SML_patchable p.syscall_num p.return_register (sumRange p.lens start_idx i))
        (List.range' start_idx (syscall_idx + 1 - start_idx)) = o2
      generalize List.find? (fun i => is_SML_patchable p.syscall_num p.return_register
          (sumRange p.lens start_idx i))
        (List.range' start_idx (second_ecall_idx - start_idx)) = o3
      cases o2 <;> cases o3 <;> rfl
  · intro num rr
    simp [create_patch_classify, is_SML_patchable, TYPE_GW_SIZE, TYPE_MID_SIZE,
      JAL_INS_SIZE, C_LI_INS_SIZE]

/-- Helper for C1: a slot that some patch class accepts is one of 0, 1
and 2. -/
theorem slot_consistent_lt_three {num : Int} {s : Nat}
    (h : slot_consistent num s = true) : s < 3 := by
  unfold slot_consistent at h
  split at h
  · simp only [decide_eq_true_eq] at h; omega
  · split at h
    · simp only [decide_eq_true_eq] at h; omega
    · simp only [decide_eq_true_eq] at h; omega

/-- Helper for C1: at a slot past the three candidates, no switch branch
can accept any patch, so the pass over all patches finds nothing, no
matter what value the out-of-bounds read produced. -/
theorem findConsistent_none_of_ge (objs : List (List d_patch)) (key : Nat)
    {s : Nat} (hs : 3 ≤ s) : findConsistent objs key s = none := by
  unfold findConsistent
  have h0 : (allPatches objs).find? (fun q =>
      decide (q.return_address = key) && slot_consistent q.syscall_num s) = none := by
    apply List.find?_eq_none.mpr
    intro q _ hpq
    rw [Bool.and_eq_true] at hpq
    have := slot_consistent_lt_three hpq.2
    omega
  rw [h0]
  rfl

/-- Helper for C1: unpacking a successful pass at one slot. -/
theorem findConsistent_eq_some {objs : List (List d_patch)} {key : Nat}
    {s : Nat} {r : Int × Nat} (h : findConsistent objs key s = some r) :
    ∃ q ∈ allPatches objs, q.return_address = key ∧
      slot_consistent q.syscall_num s = true ∧
      r = (q.syscall_num, q.relocation_address) := by
  unfold findConsistent at h
  obtain ⟨q, hq, hmap⟩ := Option.map_eq_some'.mp h
  have hmem := List.mem_of_find?_eq_some hq
  have hpred := List.find?_some hq
  rw [Bool.and_eq_true, decide_eq_true_eq] at hpred
  exact ⟨q, hmem, hpred.1, hpred.2, hmap.symm⟩

/-- Helper for C1: a consistently matching patch makes the pass at its
slot succeed. -/
theorem findConsistent_isSome {objs : List (List d_patch)} {key : Nat}
    {s : Nat} (q : d_patch) (hmem : q ∈ allPatches objs)
    (hra : q.return_address = key) (hsc : slot_consistent q.syscall_num s = true) :
    (findConsistent objs key s).isSome := by
  unfold findConsistent
  rw [Option.isSome_map', List.find?_isSome]
  exact ⟨q, hmem, by rw [Bool.and_eq_true, decide_eq_true_eq]; exact ⟨hra, hsc⟩⟩

/-- Helper for C1 and C9: one unfolding step of the outer loop. -/
theorem detect_scan_cons (objs : List (List d_patch)) (cand : Nat → Nat)
    (i : Nat) (rest : List Nat) :
    detect_scan objs cand (i :: rest) =
      match findConsistent objs (cand i) i with
      | some r => (some r, if (allPatches objs).isEmpty then [] else [i])
      | none => ((detect_scan objs cand rest).1,
          (if (allPatches objs).isEmpty then [] else [i]) ++
            (detect_scan objs cand rest).2) := by
  cases hf : findConsistent objs (cand i) i <;> simp only [detect_scan, hf]

/-- Helper for C1: when no slot's pass succeeds the scan falls through to
the abort. -/
theorem detect_scan_fst_none (objs : List (List d_patch)) (cand : Nat → Nat) :
    ∀ idxs : List Nat, (∀ i ∈ idxs, findConsistent objs (cand i) i = none) →
      (detect_scan objs cand idxs).1 = none := by
  intro idxs
  induction idxs with
  | nil => intro _; rfl
  | cons i rest ih =>
    intro h
    rw [detect_scan_cons, h i (List.mem_cons_self i rest)]
    exact ih (fun j hj => h j (List.mem_cons_of_mem i hj))

/-- Helper for C1: a returned pair comes from a successful pass at some
visited slot. -/
theorem detect_scan_fst_some (objs : List (List d_patch)) (cand : Nat → Nat) :
    ∀ (idxs : List Nat) (r : Int × Nat), (detect_scan objs cand idxs).1 = some r →
      ∃ i ∈ idxs, findConsistent objs (cand i) i = some r := by
  intro idxs
  induction idxs with
  | nil => intro r h; exact absurd h (by simp [detect_scan])
  | cons i rest ih =>
    intro r h
    rw [detect_scan_cons] at h
    cases hf : findConsistent objs (cand i) i with
    | some r2 =>
      rw [hf] at h
      simp only [Option.some.injEq] at h
      subst h
      exact ⟨i, List.mem_cons_self i rest, hf⟩
    | none =>
      rw [hf] at h
      simp only at h
      obtain ⟨j, hj, hfj⟩ := ih r h
      exact ⟨j, List.mem_cons_of_mem i hj, hfj⟩

/-- Helper for C1: a successful pass at some visited slot makes the scan
return a pair rather than fall through to the abort. -/
theorem detect_scan_fst_isSome (objs : List (List d_patch)) (cand : Nat → Nat) :
    ∀ idxs : List Nat, (∃ i ∈ idxs, (findConsistent objs (cand i) i).isSome) →
      (detect_scan objs cand idxs).1.isSome := by
  intro idxs
  induction idxs with
  | nil => rintro ⟨i, hi, _⟩; exact absurd hi (List.not_mem_nil i)
  | cons i rest ih =>
    rintro ⟨j, hj, hsome⟩
    rw [detect_scan_cons]
    cases hf : findConsistent objs (cand i) i with
    | some r => simp
    | none =>
      simp only
      rcases List.mem_cons.mp hj with rfl | hj2
      · rw [hf] at hsome; simp at hsome
      · exact ih ⟨j, hj2, hsome⟩

/-- C1: whenever some patch's return_address equals one of the three
candidate return addresses and its class tag is consistent with that
candidate's slot, detect_cur_patch hands back such a patch's syscall_num
field, the class tag, and its relocation_address, as the a0 and a1 pair;
when no patch matches consistently the routine falls through to the
abort, modelled by none, whatever values the out-of-bounds candidate
reads beyond slot 2 produce. -/
theorem detect_cur_patch_consistent_match_or_abort
    (objs : List (List d_patch)) (mid sml gw : Nat) (junk : Nat → Nat) :
    ((∃ s, s < 3 ∧ ∃ p ∈ allPatches objs,
        p.return_address = ret_addrs mid sml gw junk s ∧
        slot_consistent p.syscall_num s = true) →
      ∃ s, s < 3 ∧ ∃ p ∈ allPatches objs,
        p.return_address = ret_addrs mid sml gw junk s ∧
        slot_consistent p.syscall_num s = true ∧
        (detect_cur_patch objs mid sml gw junk).1 =
          some (p.syscall_num, p.relocation_address)) ∧
    ((∀ s, s < 3 → ∀ p ∈ allPatches objs,
        ¬ (p.return_address = ret_addrs mid sml gw junk s ∧
          slot_consistent p.syscall_num s = true)) →
      (detect_cur_patch objs mid sml gw junk).1 = none) := by
  constructor
  · rintro ⟨s, hs3, p, hp, hra, hsc⟩
    have hSome : (findConsistent objs (ret_addrs mid sml gw junk s) s).isSome :=
      findConsistent_isSome p hp hra hsc
    have hmem : s ∈ List.range 24 := List.mem_range.mpr (by omega)
    have h1 : (detect_cur_patch objs mid sml gw junk).1.isSome := by
      unfold detect_cur_patch
      exact detect_scan_fst_isSome objs (ret_addrs mid sml gw junk) (List.range 24)
        ⟨s, hmem, hSome⟩
    obtain ⟨r, hr⟩ := Option.isSome_iff_exists.mp h1
    have hr2 : (detect_scan objs (ret_addrs mid sml gw junk) (List.range 24)).1 = some r := hr
    obtain ⟨j, hjmem, hjf⟩ :=
      detect_scan_fst_some objs (ret_addrs mid sml gw junk) (List.range 24) r hr2
    obtain ⟨q, hqmem, hqra, hqsc, hqr⟩ := findConsistent_eq_some hjf
    refine ⟨j, slot_consistent_lt_three hqsc, q, hqmem, hqra, hqsc, ?_⟩
    rw [hr, hqr]
  · intro h
    unfold detect_cur_patch
    apply detect_scan_fst_none
    intro i hi
    rcases Nat.lt_or_ge i 3 with hlt | hge
    · unfold findConsistent
      have h0 : (allPatches objs).find? (fun q =>
          decide (q.return_address = ret_addrs mid sml gw junk i) &&
            slot_consistent q.syscall_num i) = none := by
        apply List.find?_eq_none.mpr
        intro q hq hpq
        rw [Bool.and_eq_true, decide_eq_true_eq] at hpq
        exact h i hlt q hq ⟨hpq.1, hpq.2⟩
      rw [h0]
      rfl
    · exact findConsistent_none_of_ge objs _ hge

/-- The C1 theorem at concrete inputs: a single gateway patch keyed by
the third candidate is identified, and a mismatched key falls through to
the abort. -/
theorem detect_cur_patch_consistent_match_or_abort_witness :
    (∃ s, s < 3 ∧ ∃ p ∈ allPatches [[d_patch.mk 300 TYPE_GW 77]],
        p.return_address = ret_addrs 1 2 300 (fun _ => 0) s ∧
        slot_consistent p.syscall_num s = true ∧
        (detect_cur_patch [[d_patch.mk 300 TYPE_GW 77]] 1 2 300 (fun _ => 0)).1 =
          some (p.syscall_num, p.relocation_address)) ∧
    (detect_cur_patch [[d_patch.mk 99 TYPE_MID 7]] 1 2 3 (fun _ => 0)).1 = none := by
  constructor
  · exact (detect_cur_patch_consistent_match_or_abort
      [[d_patch.mk 300 TYPE_GW 77]] 1 2 300 (fun _ => 0)).1
      ⟨2, by omega, d_patch.mk 300 TYPE_GW 77, by decide, by decide, by decide⟩
  · apply (detect_cur_patch_consistent_match_or_abort
      [[d_patch.mk 99 TYPE_MID 7]] 1 2 3 (fun _ => 0)).2
    intro s hs p hp hcon
    have hp2 : p = d_patch.mk 99 TYPE_MID 7 := by
      simpa [allPatches] using hp
    subst hp2
    obtain ⟨hra, _⟩ := hcon
    interval_cases s <;> simp [ret_addrs] at hra

/-- C9 is violated by the code and the claim matches the evident intent:
the outer loop in detect_cur_patch runs ra_idx from 0 to
sizeof(ret_addrs) - 1 = 23 because sizeof counts the 24 bytes of the
three-element uint64_t array, so with one patch present and no candidate
matching, the innermost comparison reads ret_addrs at every index 0..23,
indices 3..23 of which are out of the array's bounds, before reaching
the abort. -/
theorem detect_cur_patch_oob_read :
    (detect_cur_patch [[d_patch.mk 99 TYPE_GW 5]] 1 2 3 (fun _ => 0)).2 = List.range 24 ∧
    3 ∈ (detect_cur_patch [[d_patch.mk 99 TYPE_GW 5]] 1 2 3 (fun _ => 0)).2 ∧
    (detect_cur_patch [[d_patch.mk 99 TYPE_GW 5]] 1 2 3 (fun _ => 0)).1 = none := by
  decide

/-- C2 fails on the code as universally stated: rt_sigreturn is an
intercepted syscall, the hook runs on it, sets the result slot to 42 and
returns 0, yet intercept_routine answers with the unhandled sentinel
pair, not 42, because the rt_sigreturn special case ignores the hook's
suppression. -/
theorem intercept_routine_substitution_rt_sigreturn_cex :
    (intercept_routine ⟨some (fun _ _ _ _ _ _ _ _ => (0, 42)), none, (0, 0), 0, false, false⟩
        0 5 0 0 0 0 0 139).a0 = UNH_SYSCALL ∧
    (intercept_routine ⟨some (fun _ _ _ _ _ _ _ _ => (0, 42)), none, (0, 0), 0, false, false⟩
        0 5 0 0 0 0 0 139).a1 = UNH_GENERIC ∧
    UNH_SYSCALL ≠ (42 : Int) := by decide

/-- C2 amended: for every intercepted syscall that the magic-syscalls
handler does not consume and whose number is not rt_sigreturn, if the
installed hook leaves R in the result slot and returns 0, then
intercept_routine returns R in a0 with a1 preserved and performs no
kernel call. -/
theorem intercept_routine_substitution_amended
    (env : routine_env) (a0 a1 a2 a3 a4 a5 a6 a7 R : Int)
    (h : Int → Int → Int → Int → Int → Int → Int → Int → Int × Int)
    (hmagic : env.magic = none)
    (hhook : env.hook = some h)
    (hset : h (toInt32 a7) a0 a1 a2 a3 a4 a5 a0 = (0, R))
    (hnr : toInt32 a7 ≠ SYS_rt_sigreturn) :
    (intercept_routine env a0 a1 a2 a3 a4 a5 a6 a7).a0 = R ∧
    (intercept_routine env a0 a1 a2 a3 a4 a5 a6 a7).a1 = a1 ∧
    (intercept_routine env a0 a1 a2 a3 a4 a5 a6 a7).kernel_called = false := by
  simp [intercept_routine, hmagic, hhook, hset, hnr]

/-- The amended C2 statement at a concrete suppressed call. -/
theorem intercept_routine_substitution_amended_witness :
    toInt32 172 ≠ SYS_rt_sigreturn ∧
    ((intercept_routine ⟨some (fun _ _ _ _ _ _ _ _ => (0, 42)), none, (0, 0), 0, false, false⟩
        0 0 0 0 0 0 0 172).a0 = 42 ∧
      (intercept_routine ⟨some (fun _ _ _ _ _ _ _ _ => (0, 42)), none, (0, 0), 0, false, false⟩
        0 0 0 0 0 0 0 172).a1 = 0 ∧
      (intercept_routine ⟨some (fun _ _ _ _ _ _ _ _ => (0, 42)), none, (0, 0), 0, false, false⟩
        0 0 0 0 0 0 0 172).kernel_called = false) :=
  ⟨by decide,
    intercept_routine_substitution_amended
      ⟨some (fun _ _ _ _ _ _ _ _ => (0, 42)), none, (0, 0), 0, false, false⟩
      0 0 0 0 0 0 0 172 42 (fun _ _ _ _ _ _ _ _ => (0, 42)) rfl rfl rfl (by decide)⟩

/-- C3 fails on the code as universally stated: an intercepted clone with
a nonzero child-stack argument whose hook suppresses the call, returning
0 with 7 in the result slot, is answered with 7, not with the sentinel
pair, because the clone special case sits inside the forward-to-kernel
branch. -/
theorem intercept_routine_clone_sentinel_cex :
    (intercept_routine ⟨some (fun _ _ _ _ _ _ _ _ => (0, 7)), none, (0, 0), 0, false, false⟩
        0 4096 0 0 0 0 0 220).a0 = 7 ∧
    (intercept_routine ⟨some (fun _ _ _ _ _ _ _ _ => (0, 7)), none, (0, 0), 0, false, false⟩
        0 4096 0 0 0 0 0 220).kernel_called = false ∧
    (7 : Int) ≠ UNH_SYSCALL := by decide

/-- C3 amended: when the magic handler does not consume the call and the
call is to be forwarded, no hook being installed or the hook returning
nonzero, an intercepted clone with a nonzero child-stack argument or
with CLONE_VFORK in its flags, and an intercepted clone3 whose argument
struct has a nonzero stack member, are answered with the sentinel pair
UNH_SYSCALL, UNH_CLONE and no kernel call is performed by the routine. -/
theorem intercept_routine_clone_sentinel_amended
    (env : routine_env) (a0 a1 a2 a3 a4 a5 a6 a7 : Int)
    (hmagic : env.magic = none)
    (hfwd : ∀ h, env.hook = some h → (h (toInt32 a7) a0 a1 a2 a3 a4 a5 a0).1 ≠ 0)
    (hclone : (toInt32 a7 = SYS_clone ∧ (a1 ≠ 0 ∨ Int.land a0 CLONE_VFORK ≠ 0)) ∨
      (toInt32 a7 = SYS_clone3 ∧ env.clone_args_stack ≠ 0)) :
    (intercept_routine env a0 a1 a2 a3 a4 a5 a6 a7).a0 = UNH_SYSCALL ∧
    (intercept_routine env a0 a1 a2 a3 a4 a5 a6 a7).a1 = UNH_CLONE ∧
    (intercept_routine env a0 a1 a2 a3 a4 a5 a6 a7).kernel_called = false := by
  have hcs : SYS_clone ≠ SYS_rt_sigreturn := by decide
  have hc3s : SYS_clone3 ≠ SYS_rt_sigreturn := by decide
  have hc3c : SYS_clone3 ≠ SYS_clone := by decide
  cases hh : env.hook with
  | none =>
    rcases hclone with ⟨hc, hrest⟩ | ⟨hc, hrest⟩
    · simp [intercept_routine, hmagic, hh, hc, hrest, hcs]
    · simp [intercept_routine, hmagic, hh, hc, hrest, hc3s, hc3c]
  | some h =>
    have hf := hfwd h hh
    rcases hclone with ⟨hc, hrest⟩ | ⟨hc, hrest⟩
    · rw [hc] at hf
      simp [intercept_routine, hmagic, hh, hc, hrest, hcs, hf]
    · rw [hc] at hf
      simp [intercept_routine, hmagic, hh, hc, hrest, hc3s, hc3c, hf]

/-- The amended C3 statement at a concrete forwarded clone carrying a new
child stack. -/
theorem intercept_routine_clone_sentinel_amended_witness :
    (toInt32 220 = SYS_clone ∧ ((4096 : Int) ≠ 0 ∨ Int.land 0 CLONE_VFORK ≠ 0)) ∧
    ((intercept_routine ⟨none, none, (0, 0), 0, false, false⟩
        0 4096 0 0 0 0 0 220).a0 = UNH_SYSCALL ∧
      (intercept_routine ⟨none, none, (0, 0), 0, false, false⟩
        0 4096 0 0 0 0 0 220).a1 = UNH_CLONE ∧
      (intercept_routine ⟨none, none, (0, 0), 0, false, false⟩
        0 4096 0 0 0 0 0 220).kernel_called = false) :=
  ⟨⟨by decide, Or.inl (by decide)⟩,
    intercept_routine_clone_sentinel_amended ⟨none, none, (0, 0), 0, false, false⟩
      0 4096 0 0 0 0 0 220 rfl (fun _ hh => Option.noConfusion hh)
      (Or.inl ⟨by decide, Or.inl (by decide)⟩)⟩
